import Mathlib

/-!
Shallow embedding of the `models` package of the undervalued-house-finder
repository (files enums.py, address.py, events.py, listing.py under
src/models/src/models),
together with theorems settling the frozen claims about it.

Modelling conventions:
* Python `Decimal` amounts are modelled as exact rationals (`Rat`); the
  `str(...)` rendering of a `Decimal` and the `float(...)` cast are kept at the
  value level via the `MetaValue` wrapper constructors (`str` of a decimal is
  injective on the values the code produces, so equality of renderings is
  equality of values).
* Python `datetime` values are modelled as integers; only their total order and
  equality are ever used by the code.
* `list.sort(key=..., reverse=True)` is the stable descending sort of Python; it is
  modelled by the stable insertion sort `sortDesc`, which places a newly
  inserted element after all elements with a greater-or-equal key, exactly the
  stable descending order Python produces.
* The Python `dict` `_events_by_listing` is modelled as an association list in
  insertion order, with `dictGet` (lookup with `[]` default, as in
  `dict.get(k, [])`) and `dictSet` (update in place, or append a fresh key).
* Timestamp parameters that default to `datetime.utcnow()` in Python are plain
  explicit parameters here; the defaulting is an effectful convenience the
  claims never touch.
-/

/-- Stable insertion of `x` into `l` for the descending-by-`key` order: `x` goes
after every element whose key is `≥ key x` (the stable `reverse=True` sort of
Python keeps earlier elements with equal keys in front). -/
def insertDesc (key : α → Int) (x : α) : List α → List α
  | [] => [x]
  | y :: ys => if key x < key y then y :: insertDesc key x ys else x :: y :: ys

/-- Stable descending-by-`key` sort, modelling `list.sort(key=..., reverse=True)`. -/
def sortDesc (key : α → Int) : List α → List α
  | [] => []
  | x :: xs => insertDesc key x (sortDesc key xs)

/-- Front-to-back non-increasing by `key`. -/
abbrev SortedDescBy (key : α → Int) (l : List α) : Prop :=
  l.Pairwise (fun a b => key b ≤ key a)

/-- `ListingStatus` from `models/enums.py`: status of a property listing. -/
inductive ListingStatus
  | SCHEDULED
  | CANCELLED
  | VOIDED
  | SOLD
  | WITHDRAWN
  | ACTIVE
  | UNDER_OFFER
  | UNKNOWN
deriving DecidableEq

/-- The lowercase string value of a `ListingStatus` (its `.value`, which is
also its `str(...)` rendering). -/
def ListingStatus.value : ListingStatus → String
  | .SCHEDULED => "scheduled"
  | .CANCELLED => "cancelled"
  | .VOIDED => "voided"
  | .SOLD => "sold"
  | .WITHDRAWN => "withdrawn"
  | .ACTIVE => "active"
  | .UNDER_OFFER => "under_offer"
  | .UNKNOWN => "unknown"

/-- `PropertyType` from `models/enums.py`. -/
inductive PropertyType
  | HOUSE
  | UNIT
  | APARTMENT
  | TOWNHOUSE
  | VILLA
  | LAND
  | STUDIO
  | OTHER
deriving DecidableEq

/-- Python `str.strip`: drop leading and trailing whitespace. -/
def pyStrip (l : List Char) : List Char :=
  ((l.dropWhile Char.isWhitespace).reverse.dropWhile Char.isWhitespace).reverse

/-- `needle in haystack` substring containment on character lists. -/
def containsSub (haystack needle : List Char) : Bool :=
  haystack.tails.any (fun t => needle.isPrefixOf t)

/-- `value.lower().strip()` as performed by `PropertyType.from_string`. -/
def lowstrip (value : String) : List Char :=
  pyStrip (value.data.map Char.toLower)

/-- `PropertyType.from_string` from `models/enums.py`: empty input maps to
`OTHER`; otherwise the lower-cased, stripped input is tested for keyword
substrings in the fixed source order, falling through to `OTHER`. -/
def PropertyType.from_string (value : String) : PropertyType :=
  if value = "" then PropertyType.OTHER
  else
    let v := lowstrip value
    if containsSub v "house".data then PropertyType.HOUSE
    else if containsSub v "unit".data || containsSub v "flat".data then PropertyType.UNIT
    else if containsSub v "apartment".data then PropertyType.APARTMENT
    else if containsSub v "townhouse".data || containsSub v "town house".data then
      PropertyType.TOWNHOUSE
    else if containsSub v "villa".data then PropertyType.VILLA
    else if containsSub v "land".data then PropertyType.LAND
    else if containsSub v "studio".data then PropertyType.STUDIO
    else PropertyType.OTHER

/-- Modelled from the spec: `EventType` is imported from `models.enums` by
`listing.py` and `events.py` but its definition is absent from the sources
provided; the event-derivation table of the spec names exactly these four event
kinds (price drop, auction cancellation, auction voiding, auction reschedule). -/
inductive EventType
  | PRICE_DROPPED
  | AUCTION_CANCELLED
  | AUCTION_VOIDED
  | AUCTION_RESCHEDULED
deriving DecidableEq

/-- `Address` from `models/address.py`. -/
structure Address where
  street_number : Option String
  street_name : Option String
  unit_number : Option String
  suburb : String
  state : String
  postcode : String
  full_address : Option String
  short_address : Option String
deriving DecidableEq

/-- `PriceHistory` from `models/listing.py`: a historical price record. -/
structure PriceHistory where
  price : Rat
  timestamp : Int
  source : Option String
deriving DecidableEq

/-- `AuctionHistory` from `models/listing.py`: a historical auction record. -/
structure AuctionHistory where
  auction_datetime : Int
  status : ListingStatus
  timestamp : Int
  notes : Option String
deriving DecidableEq

/-- A value stored in the metadata mapping of an event.  The constructors record how
the Python code rendered the value: `dec v` is `str(...)` of the `Decimal` `v`,
`fl v` is `float(v)`, `dt t` is `datetime.isoformat()` of `t`, `str`/`optStr`
are plain (optional) strings. -/
inductive MetaValue
  | dec (v : Rat)
  | fl (v : Rat)
  | str (v : String)
  | optStr (v : Option String)
  | dt (v : Int)
deriving DecidableEq

/-- `Event` from `models/events.py`. -/
structure Event where
  event_type : EventType
  timestamp : Int
  listing_id : String
  metadata : List (String × MetaValue)
deriving DecidableEq

/-- Lookup of a key in an event metadata mapping. -/
def metaLookup (m : List (String × MetaValue)) (k : String) : Option MetaValue :=
  (m.find? (fun p => p.1 == k)).map (fun p => p.2)

/-- `EventTimeline` from `models/events.py`: the flat event list `_events` and
the per-listing index `_events_by_listing` (a dict, modelled as an association
list in insertion order). -/
structure EventTimeline where
  events : List Event
  events_by_listing : List (String × List Event)
deriving DecidableEq

/-- The empty timeline (`EventTimeline.__init__`). -/
def EventTimeline.empty : EventTimeline :=
  { events := [], events_by_listing := [] }

/-- `dict.get(k, [])` on the per-listing index. -/
def dictGet (d : List (String × List Event)) (k : String) : List Event :=
  match d.find? (fun p => p.1 == k) with
  | some p => p.2
  | none => []

/-- `d[k] = v` on the per-listing index: replace the value at an existing key,
or append a fresh key at the end (Python dicts keep insertion order). -/
def dictSet (d : List (String × List Event)) (k : String) (v : List Event) :
    List (String × List Event) :=
  if (d.find? (fun p => p.1 == k)).isSome then
    d.map (fun p => if p.1 == k then (k, v) else p)
  else
    d ++ [(k, v)]

/-- `EventTimeline.add_event`: build the event, append it to the global list
and to the per-listing index (creating the key if absent), then re-sort both
descending by timestamp.  Returns the updated timeline and the created event. -/
def EventTimeline.add_event (tl : EventTimeline) (event_type : EventType)
    (listing_id : String) (timestamp : Int)
    (metadata : List (String × MetaValue)) : EventTimeline × Event :=
  let event : Event :=
    { event_type := event_type, timestamp := timestamp,
      listing_id := listing_id, metadata := metadata }
  let events' := sortDesc (fun e => e.timestamp) (tl.events ++ [event])
  let byListing' :=
    sortDesc (fun e => e.timestamp) (dictGet tl.events_by_listing listing_id ++ [event])
  ({ events := events',
     events_by_listing := dictSet tl.events_by_listing listing_id byListing' },
   event)

/-- `EventTimeline.get_events_for_listing`: the per-listing index entry
(defaulting to `[]` for an unknown id), optionally filtered by exact event
type, optionally truncated to the first `limit` entries. -/
def EventTimeline.get_events_for_listing (tl : EventTimeline) (listing_id : String)
    (event_type : Option EventType) (limit : Option Nat) : List Event :=
  let events := dictGet tl.events_by_listing listing_id
  let filtered :=
    match event_type with
    | some et => events.filter (fun e => e.event_type == et)
    | none => events
  match limit with
  | some n => filtered.take n
  | none => filtered

/-- `EventTimeline.get_all_events`. -/
def EventTimeline.get_all_events (tl : EventTimeline)
    (event_type : Option EventType) (limit : Option Nat) : List Event :=
  let filtered :=
    match event_type with
    | some et => tl.events.filter (fun e => e.event_type == et)
    | none => tl.events
  match limit with
  | some n => filtered.take n
  | none => filtered

/-- `EventTimeline.count_events`. -/
def EventTimeline.count_events (tl : EventTimeline)
    (listing_id : Option String) (event_type : Option EventType) : Nat :=
  match listing_id with
  | some lid => (tl.get_events_for_listing lid event_type none).length
  | none => (tl.get_all_events event_type none).length

/-- `EventTimeline.clear`: empties both the global list and the index. -/
def EventTimeline.clear (_tl : EventTimeline) : EventTimeline :=
  { events := [], events_by_listing := [] }

/-- `Listing` from `models/listing.py` (all fields of the pydantic model). -/
structure Listing where
  listing_id : String
  address : Address
  suburb : String
  property_type : PropertyType
  bedrooms : Option Int
  bathrooms : Option Int
  land_size : Option Rat
  building_size : Option Rat
  status : ListingStatus
  current_price : Option Rat
  previous_price : Option Rat
  auction_datetime : Option Int
  price_history : List PriceHistory
  auction_history : List AuctionHistory
  property_link : Option String
  description : Option String
  created_at : Option Int
  updated_at : Option Int
  source : Option String
deriving DecidableEq

/-- `Listing.add_price_record`: detect a drop against the old current price,
shift `current_price` into `previous_price` when present, set the new current
price, append `PriceHistory(price, timestamp)` (the `source` of the appended
record is the pydantic default `None` — the method passes none), re-sort descending by
timestamp, and, when a drop was detected and a timeline was supplied, log one
`PRICE_DROPPED` event computed from the updated `previous_price`.  Returns the
updated listing and the updated timeline (when one was supplied). -/
def Listing.add_price_record (l : Listing) (price : Rat) (timestamp : Int)
    (event_timeline : Option EventTimeline) : Listing × Option EventTimeline :=
  let price_dropped : Bool :=
    match l.current_price with
    | some cp => decide (price < cp)
    | none => false
  let previous_price' := if l.current_price.isSome then l.current_price else l.previous_price
  let history' := sortDesc (fun r => r.timestamp)
    (l.price_history ++ [{ price := price, timestamp := timestamp, source := none }])
  let l' := { l with previous_price := previous_price',
                     current_price := some price,
                     price_history := history' }
  match event_timeline with
  | none => (l', none)
  | some tl =>
    if price_dropped then
      match l'.previous_price with
      | some pp =>
        let price_drop_amount := pp - price
        let price_drop_percent := (price_drop_amount / pp) * 100
        (l', some (tl.add_event EventType.PRICE_DROPPED l.listing_id timestamp
          [("old_price", MetaValue.dec pp),
           ("new_price", MetaValue.dec price),
           ("drop_amount", MetaValue.dec price_drop_amount),
           ("drop_percent", MetaValue.fl price_drop_percent)]).1)
      | none => (l', some tl)
    else (l', some tl)

/-- `Listing.add_auction_record`: capture the previous status and auction
datetime, advance `auction_datetime` when a strictly later `scheduled` auction
comes in (or none was stored), unconditionally overwrite `status`, append the
history record and re-sort descending by timestamp, then log at most one of
`AUCTION_CANCELLED` / `AUCTION_VOIDED` / `AUCTION_RESCHEDULED` when a timeline
was supplied. -/
def Listing.add_auction_record (l : Listing) (auction_datetime : Int)
    (status : ListingStatus) (timestamp : Int) (notes : Option String)
    (event_timeline : Option EventTimeline) : Listing × Option EventTimeline :=
  let previous_status := l.status
  let previous_auction_datetime := l.auction_datetime
  let auction_datetime' :=
    if status = ListingStatus.SCHEDULED then
      match l.auction_datetime with
      | none => some auction_datetime
      | some d => if auction_datetime > d then some auction_datetime else some d
    else l.auction_datetime
  let history' := sortDesc (fun r => r.timestamp)
    (l.auction_history ++
      [{ auction_datetime := auction_datetime, status := status,
         timestamp := timestamp, notes := notes }])
  let l' := { l with auction_datetime := auction_datetime',
                     status := status,
                     auction_history := history' }
  match event_timeline with
  | none => (l', none)
  | some tl =>
    if status = ListingStatus.CANCELLED then
      (l', some (tl.add_event EventType.AUCTION_CANCELLED l.listing_id timestamp
        [("previous_status", MetaValue.str previous_status.value),
         ("auction_datetime", MetaValue.dt auction_datetime),
         ("notes", MetaValue.optStr notes)]).1)
    else if status = ListingStatus.VOIDED then
      (l', some (tl.add_event EventType.AUCTION_VOIDED l.listing_id timestamp
        [("previous_status", MetaValue.str previous_status.value),
         ("auction_datetime", MetaValue.dt auction_datetime),
         ("notes", MetaValue.optStr notes)]).1)
    else
      match previous_auction_datetime with
      | some prev =>
        if status = ListingStatus.SCHEDULED ∧ auction_datetime ≠ prev then
          (l', some (tl.add_event EventType.AUCTION_RESCHEDULED l.listing_id timestamp
            [("old_auction_datetime", MetaValue.dt prev),
             ("new_auction_datetime", MetaValue.dt auction_datetime),
             ("notes", MetaValue.optStr notes)]).1)
        else (l', some tl)
      | none => (l', some tl)

/-- Following the words of the spec for `RecordPrice(listing, new_price, timestamp?,
source?)`: the spec gives the mutator an optional `source` argument and appends
a record of `new_price`, `timestamp` and `source` to `price_history`.  This is
the record that spec-conformant mutator would append; it is compared against
the record the code actually appends. -/
def specRecordPriceEntry (new_price : Rat) (timestamp : Int)
    (source : Option String) : PriceHistory :=
  { price := new_price, timestamp := timestamp, source := source }

/-- The arguments of one `add_price_record` call (price and timestamp). -/
structure PriceCall where
  price : Rat
  timestamp : Int
deriving DecidableEq

/-- Run a sequence of `add_price_record` calls on a listing.  No timeline is
threaded: the resulting listing is the same with or without one. -/
def runPriceCalls (l : Listing) : List PriceCall → Listing
  | [] => l
  | c :: cs => runPriceCalls (l.add_price_record c.price c.timestamp none).1 cs

/-- A client operation on an `EventTimeline`. -/
inductive TimelineOp
  | addEvent (event_type : EventType) (listing_id : String) (timestamp : Int)
      (metadata : List (String × MetaValue))
  | clear

/-- Apply one timeline operation. -/
def applyOp (tl : EventTimeline) : TimelineOp → EventTimeline
  | TimelineOp.addEvent et lid t m => (tl.add_event et lid t m).1
  | TimelineOp.clear => tl.clear

/-- The timeline reached from the empty one by a sequence of operations. -/
def runOps (ops : List TimelineOp) : EventTimeline :=
  ops.foldl applyOp EventTimeline.empty

/-- The number of `add_event` calls since the most recent `clear` (or since
construction when none occurred). -/
def countAddsSinceClear (ops : List TimelineOp) : Nat :=
  ops.foldl
    (fun n op =>
      match op with
      | TimelineOp.addEvent _ _ _ _ => n + 1
      | TimelineOp.clear => 0)
    0

/-- Structural invariant of reachable timelines: per-listing entries hold
events of that listing in descending timestamp order, index keys are unique,
the index holds exactly the events of the global list (as a multiset), and the
global list is itself descending. -/
def EventTimeline.Wf (tl : EventTimeline) : Prop :=
  (∀ p ∈ tl.events_by_listing, ∀ e ∈ p.2, e.listing_id = p.1)
  ∧ (tl.events_by_listing.map Prod.fst).Nodup
  ∧ List.Perm (tl.events_by_listing.map Prod.snd).flatten tl.events
  ∧ (∀ p ∈ tl.events_by_listing, SortedDescBy (fun e => e.timestamp) p.2)
  ∧ SortedDescBy (fun e => e.timestamp) tl.events

/-- A concrete listing built from the example data of the repository, used by
witnesses. -/
def sampleListing : Listing :=
  { listing_id := "149785064"
    address :=
      { street_number := some "31"
        street_name := some "Aberdeen Drive"
        unit_number := none
        suburb := "Dandenong North"
        state := "Vic"
        postcode := "3175"
        full_address := some "31 Aberdeen Drive, Dandenong North, Vic 3175"
        short_address := none }
    suburb := "Dandenong North"
    property_type := PropertyType.HOUSE
    bedrooms := some 6
    bathrooms := some 2
    land_size := some 554
    building_size := none
    status := ListingStatus.SCHEDULED
    current_price := some 800000
    previous_price := none
    auction_datetime := none
    price_history := []
    auction_history := []
    property_link := none
    description := none
    created_at := none
    updated_at := none
    source := none }

theorem insertDesc_perm (key : α → Int) (x : α) (l : List α) :
    List.Perm (insertDesc key x l) (x :: l) := by
  induction l with
  | nil => exact List.Perm.refl _
  | cons y ys ih =>
    simp only [insertDesc]
    split
    · exact (ih.cons y).trans (List.Perm.swap x y ys)
    · exact List.Perm.refl _

theorem sortDesc_perm (key : α → Int) (l : List α) : List.Perm (sortDesc key l) l := by
  induction l with
  | nil => exact List.Perm.refl _
  | cons x xs ih => exact (insertDesc_perm key x (sortDesc key xs)).trans (ih.cons x)

theorem mem_insertDesc {key : α → Int} {x z : α} {l : List α} :
    z ∈ insertDesc key x l ↔ z = x ∨ z ∈ l := by
  rw [(insertDesc_perm key x l).mem_iff, List.mem_cons]

theorem insertDesc_sorted {key : α → Int} {l : List α} (x : α)
    (h : SortedDescBy key l) : SortedDescBy key (insertDesc key x l) := by
  induction l with
  | nil =>
    simp [insertDesc, SortedDescBy]
  | cons y ys ih =>
    obtain ⟨hy, hys⟩ := List.pairwise_cons.mp h
    simp only [insertDesc]
    split
    · rename_i hlt
      refine List.pairwise_cons.mpr ⟨?_, ih hys⟩
      intro b hb
      rcases mem_insertDesc.mp hb with rfl | hb
      · exact le_of_lt hlt
      · exact hy b hb
    · rename_i hge
      refine List.pairwise_cons.mpr ⟨?_, List.pairwise_cons.mpr ⟨hy, hys⟩⟩
      intro b hb
      rcases List.mem_cons.mp hb with rfl | hb
      · exact le_of_not_lt hge
      · exact (hy b hb).trans (le_of_not_lt hge)

theorem sortDesc_sorted (key : α → Int) (l : List α) :
    SortedDescBy key (sortDesc key l) := by
  induction l with
  | nil => exact List.Pairwise.nil
  | cons x xs ih => exact insertDesc_sorted x ih

theorem sortDesc_length (key : α → Int) (l : List α) :
    (sortDesc key l).length = l.length :=
  (sortDesc_perm key l).length_eq

theorem add_price_record_fst (l : Listing) (price : Rat) (t : Int)
    (tl : Option EventTimeline) :
    (l.add_price_record price t tl).1 =
      { l with
          previous_price :=
            if l.current_price.isSome then l.current_price else l.previous_price,
          current_price := some price,
          price_history := sortDesc (fun r => r.timestamp)
            (l.price_history ++ [{ price := price, timestamp := t, source := none }]) } := by
  unfold Listing.add_price_record
  cases tl with
  | none => rfl
  | some tl' =>
    dsimp only
    split
    · split <;> rfl
    · rfl

theorem add_auction_record_fst (l : Listing) (ad : Int) (st : ListingStatus)
    (t : Int) (notes : Option String) (tl : Option EventTimeline) :
    (l.add_auction_record ad st t notes tl).1 =
      { l with
          auction_datetime :=
            if st = ListingStatus.SCHEDULED then
              match l.auction_datetime with
              | none => some ad
              | some d => if ad > d then some ad else some d
            else l.auction_datetime,
          status := st,
          auction_history := sortDesc (fun r => r.timestamp)
            (l.auction_history ++
              [{ auction_datetime := ad, status := st, timestamp := t, notes := notes }]) } := by
  unfold Listing.add_auction_record
  cases tl with
  | none => rfl
  | some tl' =>
    dsimp only
    split
    · rfl
    · split
      · rfl
      · split
        · split <;> rfl
        · rfl

theorem add_price_record_history_perm (l : Listing) (price : Rat) (t : Int)
    (tl : Option EventTimeline) :
    List.Perm (l.add_price_record price t tl).1.price_history
      ({ price := price, timestamp := t, source := none } :: l.price_history) := by
  rw [add_price_record_fst]
  exact (sortDesc_perm _ _).trans (List.perm_append_singleton _ _)

theorem add_auction_record_history_perm (l : Listing) (ad : Int) (st : ListingStatus)
    (t : Int) (notes : Option String) (tl : Option EventTimeline) :
    List.Perm (l.add_auction_record ad st t notes tl).1.auction_history
      ({ auction_datetime := ad, status := st, timestamp := t, notes := notes }
        :: l.auction_history) := by
  rw [add_auction_record_fst]
  exact (sortDesc_perm _ _).trans (List.perm_append_singleton _ _)

/-- C9: `add_price_record` changes no field of the listing other than
`current_price`, `previous_price` and `price_history`, and `add_auction_record`
changes none other than `status`, `auction_datetime` and `auction_history`;
in particular `listing_id`, `address`, `suburb`, `property_type`, `bedrooms`,
`bathrooms`, `land_size`, `building_size` and the respectively other history
are unchanged by each mutator call. -/
theorem add_price_and_auction_record_frame (l : Listing) (price : Rat) (t : Int)
    (tl : Option EventTimeline) (ad : Int) (st : ListingStatus) (t2 : Int)
    (notes : Option String) (tl2 : Option EventTimeline) :
    ((l.add_price_record price t tl).1.listing_id = l.listing_id
      ∧ (l.add_price_record price t tl).1.address = l.address
      ∧ (l.add_price_record price t tl).1.suburb = l.suburb
      ∧ (l.add_price_record price t tl).1.property_type = l.property_type
      ∧ (l.add_price_record price t tl).1.bedrooms = l.bedrooms
      ∧ (l.add_price_record price t tl).1.bathrooms = l.bathrooms
      ∧ (l.add_price_record price t tl).1.land_size = l.land_size
      ∧ (l.add_price_record price t tl).1.building_size = l.building_size
      ∧ (l.add_price_record price t tl).1.status = l.status
      ∧ (l.add_price_record price t tl).1.auction_datetime = l.auction_datetime
      ∧ (l.add_price_record price t tl).1.auction_history = l.auction_history
      ∧ (l.add_price_record price t tl).1.property_link = l.property_link
      ∧ (l.add_price_record price t tl).1.description = l.description
      ∧ (l.add_price_record price t tl).1.created_at = l.created_at
      ∧ (l.add_price_record price t tl).1.updated_at = l.updated_at
      ∧ (l.add_price_record price t tl).1.source = l.source)
    ∧ ((l.add_auction_record ad st t2 notes tl2).1.listing_id = l.listing_id
      ∧ (l.add_auction_record ad st t2 notes tl2).1.address = l.address
      ∧ (l.add_auction_record ad st t2 notes tl2).1.suburb = l.suburb
      ∧ (l.add_auction_record ad st t2 notes tl2).1.property_type = l.property_type
      ∧ (l.add_auction_record ad st t2 notes tl2).1.bedrooms = l.bedrooms
      ∧ (l.add_auction_record ad st t2 notes tl2).1.bathrooms = l.bathrooms
      ∧ (l.add_auction_record ad st t2 notes tl2).1.land_size = l.land_size
      ∧ (l.add_auction_record ad st t2 notes tl2).1.building_size = l.building_size
      ∧ (l.add_auction_record ad st t2 notes tl2).1.current_price = l.current_price
      ∧ (l.add_auction_record ad st t2 notes tl2).1.previous_price = l.previous_price
      ∧ (l.add_auction_record ad st t2 notes tl2).1.price_history = l.price_history
      ∧ (l.add_auction_record ad st t2 notes tl2).1.property_link = l.property_link
      ∧ (l.add_auction_record ad st t2 notes tl2).1.description = l.description
      ∧ (l.add_auction_record ad st t2 notes tl2).1.created_at = l.created_at
      ∧ (l.add_auction_record ad st t2 notes tl2).1.updated_at = l.updated_at
      ∧ (l.add_auction_record ad st t2 notes tl2).1.source = l.source) := by
  rw [add_price_record_fst, add_auction_record_fst]
  refine ⟨⟨rfl, rfl, rfl, rfl, rfl, rfl, rfl, rfl, rfl, rfl, rfl, rfl, rfl, rfl, rfl, rfl⟩,
          ⟨rfl, rfl, rfl, rfl, rfl, rfl, rfl, rfl, rfl, rfl, rfl, rfl, rfl, rfl, rfl, rfl⟩⟩

/-- C3: `auction_datetime` changes only on a `scheduled` record whose datetime
is strictly later than the stored one (or when none is stored); with a
non-`scheduled` status, or an earlier-or-equal datetime, it is unchanged, while
`status` is unconditionally overwritten with the incoming status. -/
theorem add_auction_record_datetime_advance (l : Listing) (ad : Int)
    (st : ListingStatus) (t : Int) (notes : Option String)
    (tl : Option EventTimeline) :
    ((l.add_auction_record ad st t notes tl).1.status = st)
    ∧ (st = ListingStatus.SCHEDULED → l.auction_datetime = none →
        (l.add_auction_record ad st t notes tl).1.auction_datetime = some ad)
    ∧ (∀ d : Int, l.auction_datetime = some d → st = ListingStatus.SCHEDULED →
        d < ad → (l.add_auction_record ad st t notes tl).1.auction_datetime = some ad)
    ∧ (∀ d : Int, l.auction_datetime = some d → st = ListingStatus.SCHEDULED →
        ad ≤ d → (l.add_auction_record ad st t notes tl).1.auction_datetime = some d)
    ∧ (st ≠ ListingStatus.SCHEDULED →
        (l.add_auction_record ad st t notes tl).1.auction_datetime = l.auction_datetime) := by
  rw [add_auction_record_fst]
  refine ⟨rfl, ?_, ?_, ?_, ?_⟩
  · intro hst hnone
    simp [hst, hnone]
  · intro d hd hst hlt
    simp [hst, hd, hlt]
  · intro d hd hst hle
    simp [hst, hd, not_lt_of_le hle]
  · intro hst
    simp [hst]

/-- C3 witness: on the sample listing (no stored auction datetime), a
`scheduled` record sets `auction_datetime` and overwrites `status`. -/
theorem add_auction_record_datetime_advance_witness :
    (ListingStatus.SCHEDULED = ListingStatus.SCHEDULED
      ∧ sampleListing.auction_datetime = none)
    ∧ (sampleListing.add_auction_record 20 ListingStatus.SCHEDULED 3 none
        none).1.auction_datetime = some 20 :=
  ⟨⟨rfl, rfl⟩,
    (add_auction_record_datetime_advance sampleListing 20 ListingStatus.SCHEDULED 3
      none none).2.1 rfl rfl⟩

/-- C5 amended: `add_price_record` takes no `source` argument; the record it
appends to `price_history` carries the call's price and timestamp and always
has `source = none`. -/
theorem add_price_record_appends_record_without_source (l : Listing) (price : Rat)
    (t : Int) (tl : Option EventTimeline) :
    ∃ r : PriceHistory,
      List.Perm (l.add_price_record price t tl).1.price_history (r :: l.price_history)
      ∧ r.price = price ∧ r.timestamp = t ∧ r.source = none :=
  ⟨{ price := price, timestamp := t, source := none },
   add_price_record_history_perm l price t tl, rfl, rfl, rfl⟩

/-- C5 counterexample: at the concrete call `add_price_record 100 5`, the code
appends a record whose `source` is `none`, while the spec record for a call
carrying `source = some "domain"` has `source = some "domain"`; the mutator in
the code has no `source` argument and can never carry one. -/
theorem add_price_record_drops_source_counterexample :
    ((sampleListing.add_price_record 100 5 none).1.price_history.map
        (fun r => r.source)) = [none]
    ∧ (specRecordPriceEntry 100 5 (some "domain")).source = some "domain"
    ∧ some "domain" ≠ (none : Option String) :=
  ⟨rfl, rfl, by simp⟩

/-- C4: the code evaluated at the failing input.  `add_price_record` with the
negative price `-5` on a listing whose current price is `800000` raises no
validation error and fully applies the mutation: `current_price` becomes `-5`,
`previous_price` is overwritten, and the negative record is appended to the
history — contradicting the claimed reject-and-leave-unmodified behaviour. -/
theorem add_price_record_accepts_negative_price :
    (sampleListing.add_price_record (-5) 7 none).1.current_price = some (-5)
    ∧ (sampleListing.add_price_record (-5) 7 none).1.previous_price = some 800000
    ∧ (sampleListing.add_price_record (-5) 7 none).1.price_history =
        [{ price := -5, timestamp := 7, source := none }] :=
  ⟨rfl, rfl, rfl⟩

theorem add_event_fst_events_perm (tl : EventTimeline) (et : EventType)
    (lid : String) (t : Int) (m : List (String × MetaValue)) :
    List.Perm (tl.add_event et lid t m).1.events
      ({ event_type := et, timestamp := t, listing_id := lid, metadata := m }
        :: tl.events) := by
  unfold EventTimeline.add_event
  exact (sortDesc_perm _ _).trans (List.perm_append_singleton _ _)

theorem add_price_record_snd_of_drop (l : Listing) (price cp : Rat) (t : Int)
    (tl : EventTimeline) (hcp : l.current_price = some cp) (hlt : price < cp) :
    (l.add_price_record price t (some tl)).2 =
      some (tl.add_event EventType.PRICE_DROPPED l.listing_id t
        [("old_price", MetaValue.dec cp), ("new_price", MetaValue.dec price),
         ("drop_amount", MetaValue.dec (cp - price)),
         ("drop_percent", MetaValue.fl ((cp - price) / cp * 100))]).1 := by
  simp [Listing.add_price_record, hcp, hlt]

theorem add_price_record_snd_of_no_drop (l : Listing) (price cp : Rat) (t : Int)
    (tl : EventTimeline) (hcp : l.current_price = some cp) (hge : cp ≤ price) :
    (l.add_price_record price t (some tl)).2 = some tl := by
  simp [Listing.add_price_record, hcp, not_lt.mpr hge]

theorem add_price_record_snd_of_none (l : Listing) (price : Rat) (t : Int)
    (tl : EventTimeline) (hcp : l.current_price = none) :
    (l.add_price_record price t (some tl)).2 = some tl := by
  simp [Listing.add_price_record, hcp]

/-- C1: with a timeline supplied, a price strictly below a non-null current
price appends exactly one `PRICE_DROPPED` event, whose `drop_amount` metadata
is the old current price minus the new price (exact decimal) and whose
`drop_percent` is that amount divided by the old price times 100 (float);
a greater-or-equal price, or a null current price, appends no event. -/
theorem add_price_record_drop_event (l : Listing) (price : Rat) (t : Int)
    (tl : EventTimeline) :
    (∀ cp : Rat, l.current_price = some cp → price < cp →
      ∃ tl' e, (l.add_price_record price t (some tl)).2 = some tl'
        ∧ List.Perm tl'.events (e :: tl.events)
        ∧ e.event_type = EventType.PRICE_DROPPED
        ∧ e.listing_id = l.listing_id
        ∧ metaLookup e.metadata "drop_amount" = some (MetaValue.dec (cp - price))
        ∧ metaLookup e.metadata "drop_percent" =
            some (MetaValue.fl ((cp - price) / cp * 100)))
    ∧ (∀ cp : Rat, l.current_price = some cp → cp ≤ price →
        (l.add_price_record price t (some tl)).2 = some tl)
    ∧ (l.current_price = none →
        (l.add_price_record price t (some tl)).2 = some tl) := by
  refine ⟨?_, ?_, ?_⟩
  · intro cp hcp hlt
    refine ⟨_, _, add_price_record_snd_of_drop l price cp t tl hcp hlt,
      add_event_fst_events_perm tl EventType.PRICE_DROPPED l.listing_id t
        [("old_price", MetaValue.dec cp), ("new_price", MetaValue.dec price),
         ("drop_amount", MetaValue.dec (cp - price)),
         ("drop_percent", MetaValue.fl ((cp - price) / cp * 100))],
      rfl, rfl, rfl, rfl⟩
  · intro cp hcp hge
    exact add_price_record_snd_of_no_drop l price cp t tl hcp hge
  · intro hcp
    exact add_price_record_snd_of_none l price t tl hcp

/-- C1 witness: dropping the price of the sample listing from 800000 to 750000 with
a timeline supplied emits the `PRICE_DROPPED` event with `drop_amount = 50000`
and `drop_percent = 6.25`. -/
theorem add_price_record_drop_event_witness :
    sampleListing.current_price = some 800000 ∧ (750000 : Rat) < 800000 ∧
    ∃ tl' e, (sampleListing.add_price_record 750000 5 (some EventTimeline.empty)).2 = some tl'
      ∧ List.Perm tl'.events (e :: EventTimeline.empty.events)
      ∧ e.event_type = EventType.PRICE_DROPPED
      ∧ e.listing_id = sampleListing.listing_id
      ∧ metaLookup e.metadata "drop_amount" =
          some (MetaValue.dec ((800000 : Rat) - 750000))
      ∧ metaLookup e.metadata "drop_percent" =
          some (MetaValue.fl (((800000 : Rat) - 750000) / 800000 * 100)) :=
  ⟨rfl, by norm_num,
    (add_price_record_drop_event sampleListing 750000 5 EventTimeline.empty).1
      800000 rfl (by norm_num)⟩

theorem add_auction_record_snd_of_cancelled (l : Listing) (ad : Int) (t : Int)
    (notes : Option String) (tl : EventTimeline) :
    (l.add_auction_record ad ListingStatus.CANCELLED t notes (some tl)).2 =
      some (tl.add_event EventType.AUCTION_CANCELLED l.listing_id t
        [("previous_status", MetaValue.str l.status.value),
         ("auction_datetime", MetaValue.dt ad),
         ("notes", MetaValue.optStr notes)]).1 := by
  simp [Listing.add_auction_record]

theorem add_auction_record_snd_of_voided (l : Listing) (ad : Int) (t : Int)
    (notes : Option String) (tl : EventTimeline) :
    (l.add_auction_record ad ListingStatus.VOIDED t notes (some tl)).2 =
      some (tl.add_event EventType.AUCTION_VOIDED l.listing_id t
        [("previous_status", MetaValue.str l.status.value),
         ("auction_datetime", MetaValue.dt ad),
         ("notes", MetaValue.optStr notes)]).1 := by
  simp [Listing.add_auction_record]

theorem add_auction_record_snd_of_rescheduled (l : Listing) (ad prev : Int)
    (t : Int) (notes : Option String) (tl : EventTimeline)
    (hprev : l.auction_datetime = some prev) (hne : ad ≠ prev) :
    (l.add_auction_record ad ListingStatus.SCHEDULED t notes (some tl)).2 =
      some (tl.add_event EventType.AUCTION_RESCHEDULED l.listing_id t
        [("old_auction_datetime", MetaValue.dt prev),
         ("new_auction_datetime", MetaValue.dt ad),
         ("notes", MetaValue.optStr notes)]).1 := by
  simp [Listing.add_auction_record, hprev, hne]

/-- C2: with a timeline supplied, `add_auction_record` appends exactly one
`AUCTION_CANCELLED` event on status `cancelled`; exactly one `AUCTION_VOIDED`
on `voided`; exactly one `AUCTION_RESCHEDULED` carrying the old and new
datetimes on `scheduled` with a stored datetime differing from the incoming
one; no event on a first-ever `scheduled` (no stored datetime); and no event
on any other status. -/
theorem add_auction_record_events (l : Listing) (ad : Int) (st : ListingStatus)
    (t : Int) (notes : Option String) (tl : EventTimeline) :
    (st = ListingStatus.CANCELLED →
      ∃ tl' e, (l.add_auction_record ad st t notes (some tl)).2 = some tl'
        ∧ List.Perm tl'.events (e :: tl.events)
        ∧ e.event_type = EventType.AUCTION_CANCELLED)
    ∧ (st = ListingStatus.VOIDED →
      ∃ tl' e, (l.add_auction_record ad st t notes (some tl)).2 = some tl'
        ∧ List.Perm tl'.events (e :: tl.events)
        ∧ e.event_type = EventType.AUCTION_VOIDED)
    ∧ (∀ prev : Int, l.auction_datetime = some prev → st = ListingStatus.SCHEDULED →
        ad ≠ prev →
      ∃ tl' e, (l.add_auction_record ad st t notes (some tl)).2 = some tl'
        ∧ List.Perm tl'.events (e :: tl.events)
        ∧ e.event_type = EventType.AUCTION_RESCHEDULED
        ∧ metaLookup e.metadata "old_auction_datetime" = some (MetaValue.dt prev)
        ∧ metaLookup e.metadata "new_auction_datetime" = some (MetaValue.dt ad))
    ∧ (st = ListingStatus.SCHEDULED → l.auction_datetime = none →
        (l.add_auction_record ad st t notes (some tl)).2 = some tl)
    ∧ (st ≠ ListingStatus.CANCELLED → st ≠ ListingStatus.VOIDED →
        st ≠ ListingStatus.SCHEDULED →
        (l.add_auction_record ad st t notes (some tl)).2 = some tl) := by
  refine ⟨?_, ?_, ?_, ?_, ?_⟩
  · rintro rfl
    exact ⟨_, _, add_auction_record_snd_of_cancelled l ad t notes tl,
      add_event_fst_events_perm tl EventType.AUCTION_CANCELLED l.listing_id t _, rfl⟩
  · rintro rfl
    exact ⟨_, _, add_auction_record_snd_of_voided l ad t notes tl,
      add_event_fst_events_perm tl EventType.AUCTION_VOIDED l.listing_id t _, rfl⟩
  · rintro prev hprev rfl hne
    exact ⟨_, _, add_auction_record_snd_of_rescheduled l ad prev t notes tl hprev hne,
      add_event_fst_events_perm tl EventType.AUCTION_RESCHEDULED l.listing_id t _,
      rfl, rfl, rfl⟩
  · rintro rfl hnone
    simp [Listing.add_auction_record, hnone]
  · intro hc hv hs
    cases hprev : l.auction_datetime with
    | none => simp [Listing.add_auction_record, hc, hv, hs, hprev]
    | some prev => simp [Listing.add_auction_record, hc, hv, hs, hprev]

/-- C2 witness: cancelling the auction of the sample listing with a timeline
supplied emits exactly one `AUCTION_CANCELLED` event. -/
theorem add_auction_record_events_witness :
    ∃ tl' e, (sampleListing.add_auction_record 20 ListingStatus.CANCELLED 3 none
        (some EventTimeline.empty)).2 = some tl'
      ∧ List.Perm tl'.events (e :: EventTimeline.empty.events)
      ∧ e.event_type = EventType.AUCTION_CANCELLED :=
  (add_auction_record_events sampleListing 20 ListingStatus.CANCELLED 3 none
    EventTimeline.empty).1 rfl

theorem add_price_record_history_length (l : Listing) (price : Rat) (t : Int)
    (tl : Option EventTimeline) :
    (l.add_price_record price t tl).1.price_history.length =
      l.price_history.length + 1 := by
  rw [(add_price_record_history_perm l price t tl).length_eq]
  rfl

theorem add_price_record_history_sorted (l : Listing) (price : Rat) (t : Int)
    (tl : Option EventTimeline) :
    SortedDescBy (fun r => r.timestamp) (l.add_price_record price t tl).1.price_history := by
  rw [add_price_record_fst]
  exact sortDesc_sorted _ _

theorem add_auction_record_history_sorted (l : Listing) (ad : Int)
    (st : ListingStatus) (t : Int) (notes : Option String)
    (tl : Option EventTimeline) :
    SortedDescBy (fun r => r.timestamp)
      (l.add_auction_record ad st t notes tl).1.auction_history := by
  rw [add_auction_record_fst]
  exact sortDesc_sorted _ _

theorem runPriceCalls_length (cs : List PriceCall) (l : Listing) :
    (runPriceCalls l cs).price_history.length = l.price_history.length + cs.length := by
  induction cs generalizing l with
  | nil => rfl
  | cons c cs ih =>
    show (runPriceCalls _ cs).price_history.length = _
    rw [ih, add_price_record_history_length]
    simp [Nat.add_comm, Nat.add_assoc, Nat.add_left_comm]

theorem runPriceCalls_sorted (cs : List PriceCall) (l : Listing)
    (h : SortedDescBy (fun r => r.timestamp) l.price_history) :
    SortedDescBy (fun r => r.timestamp) (runPriceCalls l cs).price_history := by
  induction cs generalizing l with
  | nil => exact h
  | cons c cs ih => exact ih _ (add_price_record_history_sorted l c.price c.timestamp none)

/-- C6: starting from an empty `price_history`, after the `k`-th of a sequence
of `add_price_record` calls the history has exactly `k` entries and its
timestamps are non-increasing front to back; and every `add_auction_record`
call leaves `auction_history` a permutation of the old history with the new
record added (no deletion) and sorted descending by timestamp. -/
theorem history_growth_and_descending (cs : List PriceCall) (l : Listing)
    (h : l.price_history = []) (k : Nat) (hk : k ≤ cs.length) :
    ((runPriceCalls l (cs.take k)).price_history.length = k
      ∧ SortedDescBy (fun r => r.timestamp) (runPriceCalls l (cs.take k)).price_history)
    ∧ ∀ (l2 : Listing) (ad : Int) (st : ListingStatus) (t : Int)
        (notes : Option String) (tl : Option EventTimeline),
        List.Perm (l2.add_auction_record ad st t notes tl).1.auction_history
          ({ auction_datetime := ad, status := st, timestamp := t, notes := notes }
            :: l2.auction_history)
        ∧ SortedDescBy (fun r => r.timestamp)
            (l2.add_auction_record ad st t notes tl).1.auction_history := by
  refine ⟨⟨?_, ?_⟩, fun l2 ad st t notes tl =>
    ⟨add_auction_record_history_perm l2 ad st t notes tl,
     add_auction_record_history_sorted l2 ad st t notes tl⟩⟩
  · rw [runPriceCalls_length, h]
    simp [List.length_take, Nat.min_eq_left hk]
  · refine runPriceCalls_sorted _ _ ?_
    rw [h]
    exact List.Pairwise.nil

/-- C6 witness: two concrete calls on the sample listing (empty history) leave
a two-entry, descending history. -/
theorem history_growth_and_descending_witness :
    sampleListing.price_history = []
    ∧ 2 ≤ ([⟨5, 10⟩, ⟨4, 20⟩] : List PriceCall).length
    ∧ (runPriceCalls sampleListing (([⟨5, 10⟩, ⟨4, 20⟩] : List PriceCall).take 2)).price_history.length = 2 :=
  ⟨rfl, by decide,
    (history_growth_and_descending [⟨5, 10⟩, ⟨4, 20⟩] sampleListing rfl 2
      (by decide)).1.1⟩

/-- C8: `PropertyType.from_string` is total and never fails: empty input and
input containing no keyword map to `OTHER`; matching is case-insensitive
substring matching on the lower-cased, stripped input with the fixed source
precedence (house, then unit/flat, then apartment, then townhouse, then villa,
then land, then studio, then other), so an input containing an earlier keyword
as a substring maps to that earlier variant; and the result depends only on
the lower-cased stripped text (case-insensitivity). -/
theorem from_string_total_precedence (value : String) :
    PropertyType.from_string "" = PropertyType.OTHER
    ∧ (value ≠ "" → containsSub (lowstrip value) "house".data = true →
        PropertyType.from_string value = PropertyType.HOUSE)
    ∧ (value ≠ "" → containsSub (lowstrip value) "house".data = false →
        (containsSub (lowstrip value) "unit".data = true
          ∨ containsSub (lowstrip value) "flat".data = true) →
        PropertyType.from_string value = PropertyType.UNIT)
    ∧ (value ≠ "" → containsSub (lowstrip value) "house".data = false →
        containsSub (lowstrip value) "unit".data = false →
        containsSub (lowstrip value) "flat".data = false →
        containsSub (lowstrip value) "apartment".data = true →
        PropertyType.from_string value = PropertyType.APARTMENT)
    ∧ (value ≠ "" → containsSub (lowstrip value) "house".data = false →
        containsSub (lowstrip value) "unit".data = false →
        containsSub (lowstrip value) "flat".data = false →
        containsSub (lowstrip value) "apartment".data = false →
        (containsSub (lowstrip value) "townhouse".data = true
          ∨ containsSub (lowstrip value) "town house".data = true) →
        PropertyType.from_string value = PropertyType.TOWNHOUSE)
    ∧ (value ≠ "" → containsSub (lowstrip value) "house".data = false →
        containsSub (lowstrip value) "unit".data = false →
        containsSub (lowstrip value) "flat".data = false →
        containsSub (lowstrip value) "apartment".data = false →
        containsSub (lowstrip value) "townhouse".data = false →
        containsSub (lowstrip value) "town house".data = false →
        containsSub (lowstrip value) "villa".data = true →
        PropertyType.from_string value = PropertyType.VILLA)
    ∧ (value ≠ "" → containsSub (lowstrip value) "house".data = false →
        containsSub (lowstrip value) "unit".data = false →
        containsSub (lowstrip value) "flat".data = false →
        containsSub (lowstrip value) "apartment".data = false →
        containsSub (lowstrip value) "townhouse".data = false →
        containsSub (lowstrip value) "town house".data = false →
        containsSub (lowstrip value) "villa".data = false →
        containsSub (lowstrip value) "land".data = true →
        PropertyType.from_string value = PropertyType.LAND)
    ∧ (value ≠ "" → containsSub (lowstrip value) "house".data = false →
        containsSub (lowstrip value) "unit".data = false →
        containsSub (lowstrip value) "flat".data = false →
        containsSub (lowstrip value) "apartment".data = false →
        containsSub (lowstrip value) "townhouse".data = false →
        containsSub (lowstrip value) "town house".data = false →
        containsSub (lowstrip value) "villa".data = false →
        containsSub (lowstrip value) "land".data = false →
        containsSub (lowstrip value) "studio".data = true →
        PropertyType.from_string value = PropertyType.STUDIO)
    ∧ (containsSub (lowstrip value) "house".data = false →
        containsSub (lowstrip value) "unit".data = false →
        containsSub (lowstrip value) "flat".data = false →
        containsSub (lowstrip value) "apartment".data = false →
        containsSub (lowstrip value) "townhouse".data = false →
        containsSub (lowstrip value) "town house".data = false →
        containsSub (lowstrip value) "villa".data = false →
        containsSub (lowstrip value) "land".data = false →
        containsSub (lowstrip value) "studio".data = false →
        PropertyType.from_string value = PropertyType.OTHER)
    ∧ (∀ w : String, w ≠ "" → value ≠ "" → lowstrip w = lowstrip value →
        PropertyType.from_string w = PropertyType.from_string value) := by
  refine ⟨rfl, ?_, ?_, ?_, ?_, ?_, ?_, ?_, ?_, ?_⟩
  · intro hv h1
    simp [PropertyType.from_string, hv, h1]
  · rintro hv h1 (h2 | h2) <;> simp [PropertyType.from_string, hv, h1, h2]
  · intro hv h1 h2 h3 h4
    simp [PropertyType.from_string, hv, h1, h2, h3, h4]
  · rintro hv h1 h2 h3 h4 (h5 | h5) <;>
      simp [PropertyType.from_string, hv, h1, h2, h3, h4, h5]
  · intro hv h1 h2 h3 h4 h5 h6 h7
    simp [PropertyType.from_string, hv, h1, h2, h3, h4, h5, h6, h7]
  · intro hv h1 h2 h3 h4 h5 h6 h7 h8
    simp [PropertyType.from_string, hv, h1, h2, h3, h4, h5, h6, h7, h8]
  · intro hv h1 h2 h3 h4 h5 h6 h7 h8 h9
    simp [PropertyType.from_string, hv, h1, h2, h3, h4, h5, h6, h7, h8, h9]
  · intro h1 h2 h3 h4 h5 h6 h7 h8 h9
    by_cases hv : value = ""
    · simp [PropertyType.from_string, hv]
    · simp [PropertyType.from_string, hv, h1, h2, h3, h4, h5, h6, h7, h8, h9]
  · intro w hw hv heq
    simp [PropertyType.from_string, hw, hv, heq]

/-- C8 witness: "Townhouse" contains the earlier keyword "house" and therefore
maps to `HOUSE` (the townhouse branch is shadowed by the precedence). -/
theorem from_string_total_precedence_witness :
    ("Townhouse" ≠ "" ∧ containsSub (lowstrip "Townhouse") "house".data = true)
    ∧ PropertyType.from_string "Townhouse" = PropertyType.HOUSE :=
  ⟨⟨by decide, by decide⟩,
    (from_string_total_precedence "Townhouse").2.1 (by decide) (by decide)⟩

theorem dictGet_cons_eq (p : String × List Event) (d : List (String × List Event))
    (k : String) (h : p.1 = k) : dictGet (p :: d) k = p.2 := by
  unfold dictGet
  rw [List.find?_cons_of_pos _ (by simpa using h)]

theorem dictGet_cons_ne (p : String × List Event) (d : List (String × List Event))
    (k : String) (h : p.1 ≠ k) : dictGet (p :: d) k = dictGet d k := by
  unfold dictGet
  rw [List.find?_cons_of_neg _ (by simpa using h)]

theorem dictSet_cons_ne (p : String × List Event) (d : List (String × List Event))
    (k : String) (v : List Event) (h : p.1 ≠ k) :
    dictSet (p :: d) k v = p :: dictSet d k v := by
  have hb : (p.1 == k) = false := beq_eq_false_iff_ne.mpr h
  unfold dictSet
  rw [List.find?_cons_of_neg _ (by simpa using h)]
  by_cases hc : (List.find? (fun q => q.1 == k) d).isSome
  · rw [if_pos hc, if_pos hc, List.map_cons, if_neg (by simp [hb])]
  · rw [if_neg hc, if_neg hc, List.cons_append]

theorem mem_dictSet {d : List (String × List Event)} {k : String}
    {v : List Event} {q : String × List Event} (hq : q ∈ dictSet d k v) :
    q = (k, v) ∨ q ∈ d := by
  unfold dictSet at hq
  split at hq
  · obtain ⟨p, hp, hpq⟩ := List.mem_map.mp hq
    by_cases hb : (p.1 == k) = true
    · left
      rw [← hpq, if_pos hb]
    · right
      rw [← hpq, if_neg hb]
      exact hp
  · rcases List.mem_append.mp hq with h | h
    · right; exact h
    · left; simpa using h

theorem map_setkey_id_of_not_mem (d : List (String × List Event)) (k : String)
    (v : List Event) (h : k ∉ d.map Prod.fst) :
    d.map (fun p => if p.1 == k then (k, v) else p) = d := by
  induction d with
  | nil => rfl
  | cons q d ih =>
    simp only [List.map_cons, List.mem_cons, not_or] at h
    obtain ⟨h1, h2⟩ := h
    rw [List.map_cons, ih h2,
      if_neg (by simp; exact fun hh => h1 hh.symm)]

theorem nodup_keys_dictSet (d : List (String × List Event)) (k : String)
    (v : List Event) (hnd : (d.map Prod.fst).Nodup) :
    ((dictSet d k v).map Prod.fst).Nodup := by
  unfold dictSet
  split
  · rw [List.map_map]
    have : d.map (Prod.fst ∘ fun p => if p.1 == k then (k, v) else p) = d.map Prod.fst := by
      apply List.map_congr_left
      intro q hq
      by_cases hb : (q.1 == k) = true
      · have : q.1 = k := by simpa using hb
        simp [Function.comp, hb, this]
      · simp [Function.comp, hb]
    rw [this]
    exact hnd
  · rename_i hfound
    have hnone : List.find? (fun p => p.1 == k) d = none :=
      Option.not_isSome_iff_eq_none.mp hfound
    have hk : k ∉ d.map Prod.fst := by
      intro hk
      obtain ⟨p, hp, hpk⟩ := List.mem_map.mp hk
      exact absurd (by simpa using hpk : (p.1 == k) = true)
        (by simpa using List.find?_eq_none.mp hnone p hp)
    rw [List.map_append]
    simp only [List.map_cons, List.map_nil]
    rw [List.nodup_append]
    exact ⟨hnd, List.nodup_singleton k, by simpa using hk⟩

theorem dictSet_flatten_perm (d : List (String × List Event)) (k : String)
    (e : Event) (v : List Event) (hnd : (d.map Prod.fst).Nodup)
    (hv : List.Perm v (e :: dictGet d k)) :
    List.Perm ((dictSet d k v).map Prod.snd).flatten
      (e :: (d.map Prod.snd).flatten) := by
  induction d with
  | nil =>
    simp only [dictGet, List.find?_nil] at hv
    simp only [dictSet, List.find?_nil, Option.isSome_none, Bool.false_eq_true,
      if_false, List.nil_append, List.map_cons, List.map_nil, List.flatten_cons,
      List.flatten_nil, List.append_nil]
    simpa using hv
  | cons p d ih =>
    have hnd2 : (p.1 :: d.map Prod.fst).Nodup := by
      simpa only [List.map_cons] using hnd
    by_cases hpk : p.1 = k
    · have hb : (p.1 == k) = true := by simpa using hpk
      have hk_not : k ∉ d.map Prod.fst := by
        rw [← hpk]
        exact (List.nodup_cons.mp hnd2).1
      have hset : dictSet (p :: d) k v = (k, v) :: d := by
        unfold dictSet
        rw [List.find?_cons_of_pos _ (by simpa using hpk)]
        rw [if_pos (by simp)]
        rw [List.map_cons, if_pos hb, map_setkey_id_of_not_mem d k v hk_not]
      rw [dictGet_cons_eq p d k hpk] at hv
      rw [hset]
      simp only [List.map_cons, List.flatten_cons]
      simpa using hv.append_right ((d.map Prod.snd).flatten)
    · rw [dictGet_cons_ne p d k hpk] at hv
      rw [dictSet_cons_ne p d k v hpk]
      simp only [List.map_cons, List.flatten_cons]
      have hnd' : (d.map Prod.fst).Nodup := (List.nodup_cons.mp hnd2).2
      exact ((ih hnd' hv).append_left p.2).trans List.perm_middle

theorem dictGet_ids {d : List (String × List Event)}
    (hids : ∀ p ∈ d, ∀ e ∈ p.2, e.listing_id = p.1) (k : String) :
    ∀ ev ∈ dictGet d k, ev.listing_id = k := by
  intro ev hev
  unfold dictGet at hev
  split at hev
  · rename_i p hp
    have hpmem := List.mem_of_find?_eq_some hp
    have hpk : p.1 = k := by simpa using List.find?_some hp
    rw [← hpk]
    exact hids p hpmem ev hev
  · cases hev

theorem Wf_add_event {tl : EventTimeline} (hwf : tl.Wf) (et : EventType)
    (lid : String) (t : Int) (m : List (String × MetaValue)) :
    ((tl.add_event et lid t m).1).Wf := by
  obtain ⟨hids, hnd, hflat, hsortedBy, hsorted⟩ := hwf
  unfold EventTimeline.add_event EventTimeline.Wf
  dsimp only
  refine ⟨?_, ?_, ?_, ?_, ?_⟩
  · intro p hp ev hev
    rcases mem_dictSet hp with rfl | hp'
    · rcases List.mem_append.mp ((sortDesc_perm _ _).mem_iff.mp hev) with hev' | hev'
      · exact dictGet_ids hids lid ev hev'
      · rw [List.mem_singleton.mp hev']
    · exact hids p hp' ev hev
  · exact nodup_keys_dictSet _ _ _ hnd
  · refine (dictSet_flatten_perm _ lid _ _ hnd
      ((sortDesc_perm _ _).trans (List.perm_append_singleton _ _))).trans ?_
    exact (hflat.cons _).trans
      ((sortDesc_perm _ _).trans (List.perm_append_singleton _ _)).symm
  · intro p hp
    rcases mem_dictSet hp with rfl | hp'
    · exact sortDesc_sorted _ _
    · exact hsortedBy p hp'
  · exact sortDesc_sorted _ _

theorem Wf_empty : EventTimeline.empty.Wf := by
  refine ⟨?_, ?_, ?_, ?_, ?_⟩ <;> simp [EventTimeline.empty]

theorem Wf_foldl (ops : List TimelineOp) (tl : EventTimeline) (h : tl.Wf) :
    (ops.foldl applyOp tl).Wf := by
  induction ops generalizing tl with
  | nil => exact h
  | cons op ops ih =>
    rw [List.foldl_cons]
    apply ih
    cases op with
    | addEvent et lid t m => exact Wf_add_event h et lid t m
    | clear => exact Wf_empty

theorem wf_runOps (ops : List TimelineOp) : (runOps ops).Wf :=
  Wf_foldl ops EventTimeline.empty Wf_empty

theorem add_event_events_length (tl : EventTimeline) (et : EventType)
    (lid : String) (t : Int) (m : List (String × MetaValue)) :
    (tl.add_event et lid t m).1.events.length = tl.events.length + 1 := by
  unfold EventTimeline.add_event
  dsimp only
  rw [sortDesc_length, List.length_append]
  rfl

theorem foldl_events_length (ops : List TimelineOp) (tl : EventTimeline) :
    (ops.foldl applyOp tl).events.length =
      ops.foldl
        (fun n op =>
          match op with
          | TimelineOp.addEvent _ _ _ _ => n + 1
          | TimelineOp.clear => 0)
        tl.events.length := by
  induction ops generalizing tl with
  | nil => rfl
  | cons op ops ih =>
    rw [List.foldl_cons, List.foldl_cons, ih]
    congr 1
    cases op with
    | addEvent et lid t m => exact add_event_events_length tl et lid t m
    | clear => rfl

theorem keyed_entries_unique {d : List (String × List Event)}
    (hnd : (d.map Prod.fst).Nodup)
    (hids : ∀ p ∈ d, ∀ e ∈ p.2, e.listing_id = p.1) :
    ∀ p q : String × List Event, p ∈ d → q ∈ d →
      (∃ e, e ∈ p.2 ∧ e ∈ q.2) → p = q := by
  induction d with
  | nil =>
    intro p q hp
    cases hp
  | cons r d ih =>
    intro p q hp hq he
    obtain ⟨e, hep, heq⟩ := he
    have hnd2 : (r.1 :: d.map Prod.fst).Nodup := by
      simpa only [List.map_cons] using hnd
    have hr : r.1 ∉ d.map Prod.fst := (List.nodup_cons.mp hnd2).1
    have hnd' : (d.map Prod.fst).Nodup := (List.nodup_cons.mp hnd2).2
    have hkey : ∀ s : String × List Event, s ∈ d → ∀ ev : Event, ev ∈ s.2 →
        ev.listing_id = s.1 := fun s hs => hids s (List.mem_cons_of_mem r hs)
    rcases List.mem_cons.mp hp with hp1 | hp' <;> rcases List.mem_cons.mp hq with hq1 | hq'
    · rw [hp1, hq1]
    · exfalso
      have h1 : e.listing_id = r.1 := by
        rw [hp1] at hep
        exact hids r (List.mem_cons_self r d) e hep
      have h2 : e.listing_id = q.1 := hkey q hq' e heq
      have hmem : q.1 ∈ d.map Prod.fst := List.mem_map_of_mem Prod.fst hq'
      rw [h2.symm.trans h1] at hmem
      exact hr hmem
    · exfalso
      have h1 : e.listing_id = r.1 := by
        rw [hq1] at heq
        exact hids r (List.mem_cons_self r d) e heq
      have h2 : e.listing_id = p.1 := hkey p hp' e hep
      have hmem : p.1 ∈ d.map Prod.fst := List.mem_map_of_mem Prod.fst hp'
      rw [h2.symm.trans h1] at hmem
      exact hr hmem
    · exact ih hnd' hkey p q hp' hq' ⟨e, hep, heq⟩

/-- C10: after any sequence of `add_event` / `clear` operations, the
per-listing index is consistent with the global list: every event stored under
a key has that `listing_id`; keys are unique; the indexed events are exactly
the global events as a multiset, so every global event appears in exactly one
per-listing sequence and the per-listing lengths sum to the global length; the
global length is the number of `add_event` calls since the last `clear`; and a
`clear` leaves both structures empty. -/
theorem timeline_index_consistency (ops : List TimelineOp) :
    (∀ p ∈ (runOps ops).events_by_listing, ∀ e ∈ p.2, e.listing_id = p.1)
    ∧ ((runOps ops).events_by_listing.map Prod.fst).Nodup
    ∧ List.Perm ((runOps ops).events_by_listing.map Prod.snd).flatten
        (runOps ops).events
    ∧ (∀ e ∈ (runOps ops).events, ∃ p, p ∈ (runOps ops).events_by_listing
        ∧ e ∈ p.2 ∧ p.1 = e.listing_id)
    ∧ (∀ p q : String × List Event, p ∈ (runOps ops).events_by_listing →
        q ∈ (runOps ops).events_by_listing → (∃ e, e ∈ p.2 ∧ e ∈ q.2) → p = q)
    ∧ ((runOps ops).events_by_listing.map (fun p => p.2.length)).sum
        = (runOps ops).events.length
    ∧ (runOps ops).events.length = countAddsSinceClear ops
    ∧ (runOps (ops ++ [TimelineOp.clear])).events = []
    ∧ (runOps (ops ++ [TimelineOp.clear])).events_by_listing = [] := by
  obtain ⟨hids, hnd, hflat, hsortedBy, hsorted⟩ := wf_runOps ops
  refine ⟨hids, hnd, hflat, ?_, keyed_entries_unique hnd hids, ?_, ?_, ?_, ?_⟩
  · intro e he
    have he' : e ∈ ((runOps ops).events_by_listing.map Prod.snd).flatten :=
      hflat.mem_iff.mpr he
    obtain ⟨l, hl, hel⟩ := List.mem_flatten.mp he'
    obtain ⟨p, hp, hpl⟩ := List.mem_map.mp hl
    refine ⟨p, hp, hpl ▸ hel, (hids p hp e (hpl ▸ hel)).symm⟩
  · have h := hflat.length_eq
    rw [List.length_flatten, List.map_map] at h
    simpa [Function.comp] using h
  · have h := foldl_events_length ops EventTimeline.empty
    simpa [runOps, countAddsSinceClear, EventTimeline.empty] using h
  · simp [runOps, List.foldl_append, applyOp, EventTimeline.clear]
  · simp [runOps, List.foldl_append, applyOp, EventTimeline.clear]

/-- C7: on any reachable timeline, `get_events_for_listing` filtered by an
event type returns only events of that type, in non-increasing timestamp
order, truncated to the first `limit` entries when a limit is given; for a
listing id with no recorded events it returns the empty list (it is a total
function and never errors). -/
theorem get_events_for_listing_filtered (ops : List TimelineOp) (lid : String)
    (et : EventType) (lim : Option Nat) :
    (∀ e ∈ (runOps ops).get_events_for_listing lid (some et) lim,
      e.event_type = et)
    ∧ SortedDescBy (fun e => e.timestamp)
        ((runOps ops).get_events_for_listing lid (some et) lim)
    ∧ (∀ n : Nat, lim = some n →
        (runOps ops).get_events_for_listing lid (some et) lim =
          ((dictGet (runOps ops).events_by_listing lid).filter
            (fun e => e.event_type == et)).take n
        ∧ ((runOps ops).get_events_for_listing lid (some et) lim).length ≤ n)
    ∧ ((∀ e ∈ (runOps ops).events, e.listing_id ≠ lid) →
        (runOps ops).get_events_for_listing lid (some et) lim = []) := by
  obtain ⟨hids, hnd, hflat, hsortedBy, hsorted⟩ := wf_runOps ops
  have hget_sorted : SortedDescBy (fun e => e.timestamp)
      (dictGet (runOps ops).events_by_listing lid) := by
    unfold dictGet
    split
    · rename_i p hp
      exact hsortedBy p (List.mem_of_find?_eq_some hp)
    · exact List.Pairwise.nil
  have hfilter_sorted : SortedDescBy (fun e => e.timestamp)
      ((dictGet (runOps ops).events_by_listing lid).filter
        (fun e => e.event_type == et)) :=
    List.Pairwise.sublist (List.filter_sublist _) hget_sorted
  have hsub : ∀ e ∈ (runOps ops).get_events_for_listing lid (some et) lim,
      e ∈ (dictGet (runOps ops).events_by_listing lid).filter
        (fun e => e.event_type == et) := by
    intro e he
    unfold EventTimeline.get_events_for_listing at he
    dsimp only at he
    cases lim with
    | none => exact he
    | some n => exact List.mem_of_mem_take he
  refine ⟨?_, ?_, ?_, ?_⟩
  · intro e he
    have := List.of_mem_filter (hsub e he)
    simpa using this
  · unfold EventTimeline.get_events_for_listing
    dsimp only
    cases lim with
    | none => exact hfilter_sorted
    | some n => exact List.Pairwise.sublist (List.take_sublist _ _) hfilter_sorted
  · intro n hn
    subst hn
    refine ⟨rfl, ?_⟩
    unfold EventTimeline.get_events_for_listing
    dsimp only
    exact List.length_take_le n _
  · intro hno
    have hempty : dictGet (runOps ops).events_by_listing lid = [] := by
      unfold dictGet
      split
      · rename_i p hp
        have hpmem := List.mem_of_find?_eq_some hp
        have hpk : p.1 = lid := by simpa using List.find?_some hp
        cases hval : p.2 with
        | nil => rfl
        | cons ev evs =>
          exfalso
          have hev_in : ev ∈ ((runOps ops).events_by_listing.map Prod.snd).flatten := by
            rw [List.mem_flatten]
            exact ⟨p.2, List.mem_map_of_mem Prod.snd hpmem,
              by rw [hval]; exact List.mem_cons_self ev evs⟩
          have hev_events : ev ∈ (runOps ops).events := hflat.mem_iff.mp hev_in
          have hid : ev.listing_id = p.1 :=
            hids p hpmem ev (by rw [hval]; exact List.mem_cons_self ev evs)
          exact hno ev hev_events (hid.trans hpk)
      · rfl
    unfold EventTimeline.get_events_for_listing
    dsimp only
    rw [hempty]
    cases lim <;> simp

/-- C7 witness: querying a one-event timeline with a type filter and limit 1
returns at most one event. -/
theorem get_events_for_listing_filtered_witness :
    (some 1 = some (1 : Nat))
    ∧ ((runOps [TimelineOp.addEvent EventType.PRICE_DROPPED "listing1" 3
          []]).get_events_for_listing "listing1" (some EventType.PRICE_DROPPED)
          (some 1)).length ≤ 1 :=
  ⟨rfl,
    ((get_events_for_listing_filtered
        [TimelineOp.addEvent EventType.PRICE_DROPPED "listing1" 3 []]
        "listing1" EventType.PRICE_DROPPED (some 1)).2.2.1 1 rfl).2⟩
